import Mathlib

/-!
Verification of librashader against its design specification.

This development shallowly embeds the Rust sources of the repository:

* `librashader-capi/src/ctypes.rs` — C API handle types, context enums, the
  viewport struct, and the `config_struct` family of macros that build
  version-conditional option structs;
* `librashader-runtime-d3d11/src/quad_render.rs` — vertex data and state
  effects of the Direct3D 11 quad renderer;
* `librashader/src/lib.rs` — the `presets::get_parameter_meta` function.

Machine integers that never overflow in the modelled code are embedded as
`Nat`; exact small `f32` constants (vertex coordinates) are embedded as `Int`,
and shader parameter numeric fields as `Rat`. Fallible Rust code returning
`Result` is embedded with `Except`. Definitions whose Rust source is not part
of the verified tree are modelled from the specification and carry a doc
comment saying so.
-/

namespace Librashader

namespace CApi

/-! ## The config_struct macro family

The macro `config_struct!` in `ctypes.rs` declares, for a C API options
struct, a list of API versions, each with a list of field setter entries.
`from_uninit` reads the `version` field from the caller struct, starts from
`Default::default()`, and then walks the declared groups in declaration
order; a group declared at version `V` runs its setters only when the
requested version is at least `V` (macro guard `$realver >= $version`).
An entry is one of the three `config_set_field` arms: a plain read of the
same-named caller field (`@POINTER`), a negated read (`@POINTER @NEGATIVE`),
or a literal (`@LITERAL`). We embed fields as indices `Nat` into a field
valuation `Nat → V` over an arbitrary value type `V` with an arbitrary
negation operator standing for the Rust `!`. -/

/-- One `config_set_field` arm: plain pointer read, negated pointer read,
or literal assignment. -/
inductive SetterKind (V : Type) where
  | pointer : SetterKind V
  | pointerNeg : SetterKind V
  | literal : V → SetterKind V
deriving DecidableEq

/-- One field setter entry of a `config_struct` declaration: which field it
assigns and which `config_set_field` arm it uses. -/
structure Setter (V : Type) where
  field : Nat
  kind : SetterKind V
deriving DecidableEq

/-- The caller-supplied (`MaybeUninit`) C struct: the `version` field that
`from_uninit` reads first, and the remaining fields as a valuation. -/
structure CStruct (V : Type) where
  version : Nat
  fields : Nat → V

/-- Value a setter assigns, per the three `config_set_field` arms. -/
def setterValue (neg : V → V) (input : Nat → V) (s : Setter V) : V :=
  match s.kind with
  | .pointer => input s.field
  | .pointerNeg => neg (input s.field)
  | .literal v => v

/-- Effect of one setter on the options value (`options.field = ...`). -/
def applySetter (neg : V → V) (input : Nat → V) (opts : Nat → V) (s : Setter V) :
    Nat → V :=
  Function.update opts s.field (setterValue neg input s)

/-- Effect of one version group, guarded as in `config_version_set` by
`realver >= version`. -/
def applyGroup (neg : V → V) (input : Nat → V) (realver : Nat) (opts : Nat → V)
    (g : Nat × List (Setter V)) : Nat → V :=
  if g.1 ≤ realver then g.2.foldl (applySetter neg input) opts else opts

/-- Embedding of the `from_uninit` body generated by `config_struct!`:
read `version` from the caller struct, start from the `Default::default()`
baseline, and fold the declared version groups in declaration order. -/
def from_uninit (neg : V → V) (decl : List (Nat × List (Setter V)))
    (baseline : Nat → V) (value : CStruct V) : Nat → V :=
  decl.foldl (applyGroup neg value.fields value.version) baseline

/-- Modelled from the spec (Design Note 9.2): a builder that applies the
sequence of versioned field-setters in ascending version order, each setter
guarded by "apply if requested version ≥ this version", over the explicit
default baseline. The sort is a stable insertion sort on the version key. -/
def specVersionedBuilder (neg : V → V) (decl : List (Nat × List (Setter V)))
    (baseline : Nat → V) (value : CStruct V) : Nat → V :=
  (decl.insertionSort (fun a b => a.1 ≤ b.1)).foldl
    (applyGroup neg value.fields value.version) baseline

/-- The doc example of `config_struct!` in `ctypes.rs`, with field indices
0 = frames_in_flight, 1 = use_dynamic_rendering, 2 = disable_cache:
version 0 declares a pointer read of field 0, a negated read of field 1 and
a literal `true` for field 2; version 1 declares pointer reads of
fields 1 and 2. -/
def exampleOptDecl : List (Nat × List (Setter Bool)) :=
  [(0, [⟨0, .pointer⟩, ⟨1, .pointerNeg⟩, ⟨2, .literal true⟩]),
   (1, [⟨1, .pointer⟩, ⟨2, .pointer⟩])]

/-- Accumulator step that tracks the last setter assigning field `f` while
scanning a setter list left to right. Proof device for reasoning about
`from_uninit` one field at a time. -/
def lastSetStep (f : Nat) (acc : Option (Setter V)) (s : Setter V) : Option (Setter V) :=
  if s.field = f then some s else acc

/-- The last setter for field `f` in a setter list, if any. -/
def lastSetterFor (f : Nat) (ss : List (Setter V)) : Option (Setter V) :=
  ss.foldl (lastSetStep f) none

/-- All setters of the declaration whose version group applies at the
requested version, in the order `from_uninit` runs them. -/
def applicableSetters (decl : List (Nat × List (Setter V))) (realver : Nat) :
    List (Setter V) :=
  ((decl.filter (fun g => g.1 ≤ realver)).map Prod.snd).flatten

/-- Schematic declaration for C8: the same field declared with a literal
default at a lower version and as a plain pointer read at a higher version. -/
def literalThenPointerDecl (vlo vhi f : Nat) (c : V) : List (Nat × List (Setter V)) :=
  [(vlo, [⟨f, .literal c⟩]), (vhi, [⟨f, .pointer⟩])]

/-- Schematic declaration for C8, negated-read variant. -/
def literalThenNegDecl (vlo vhi f : Nat) (c : V) : List (Nat × List (Setter V)) :=
  [(vlo, [⟨f, .literal c⟩]), (vhi, [⟨f, .pointerNeg⟩])]

end CApi

namespace D3D11

/-! ## The Direct3D 11 quad renderer

Embedding of `librashader-runtime-d3d11/src/quad_render.rs`: the static
vertex data of the two quads and the state effect of
`DrawQuad::bind_vertices` on the input assembler. All f32 components of the
static data are the exact values -1.0, 0.0 and 1.0, embedded as integers. -/

/-- Vertex layout of the quad renderer: the `repr(C)` struct `D3D11Vertex`
with a two-float position, a two-float texcoord and a four-float color. -/
structure D3D11Vertex where
  position : Int × Int
  texcoord : Int × Int
  color : Int × Int × Int × Int
deriving DecidableEq

/-- The constant `CLEAR` color `[1.0, 1.0, 1.0, 1.0]`. -/
def CLEAR : Int × Int × Int × Int := (1, 1, 1, 1)

/-- Static vertex data `OFFSCREEN_VBO_DATA`, in source order. -/
def OFFSCREEN_VBO_DATA : List D3D11Vertex :=
  [⟨(-1, -1), (0, 1), CLEAR⟩,
   ⟨(-1, 1), (0, 0), CLEAR⟩,
   ⟨(1, -1), (1, 1), CLEAR⟩,
   ⟨(1, 1), (1, 0), CLEAR⟩]

/-- Static vertex data `FINAL_VBO_DATA`, in source order. -/
def FINAL_VBO_DATA : List D3D11Vertex :=
  [⟨(0, 0), (0, 1), CLEAR⟩,
   ⟨(0, 1), (0, 0), CLEAR⟩,
   ⟨(1, 0), (1, 1), CLEAR⟩,
   ⟨(1, 1), (1, 0), CLEAR⟩]

/-- Byte size `size_of::<D3D11Vertex>()`: a `repr(C)` struct of f32 fields
laid out as two floats, two floats, four floats, four bytes each and no
padding. -/
def d3d11VertexSize : Nat := 2 * 4 + 2 * 4 + 4 * 4

/-- Which of the two static quads a draw selects. `QuadType` lives in
`librashader_runtime::quad`; its two variant names appear in the match
inside `bind_vertices`. -/
inductive QuadType where
  | Offscreen : QuadType
  | Final : QuadType
deriving DecidableEq

/-- Primitive topology of the input assembler; `triangleStrip` stands for
`D3D11_PRIMITIVE_TOPOLOGY_TRIANGLESTRIP`, the other variants for the other
D3D11 topology constants. -/
inductive Topology where
  | triangleStrip : Topology
  | pointList : Topology
  | lineList : Topology
deriving DecidableEq

/-- A vertex buffer binding as set by `IASetVertexBuffers`: the start slot,
the bound buffers (each given by its immutable creation data), and the
per-buffer stride and offset. -/
structure VertexBufferBinding where
  startSlot : Nat
  buffers : List (List D3D11Vertex)
  stride : Nat
  offset : Nat
deriving DecidableEq

/-- The observable input-assembler state of the device context that
`bind_vertices` mutates. -/
structure ContextState where
  topology : Option Topology
  vertexBuffers : Option VertexBufferBinding
deriving DecidableEq

/-- The `DrawQuad` struct: the two immutable vertex buffers created by
`DrawQuad::new`, modelled by their data, plus the stored offset and
stride. -/
structure DrawQuad where
  final_vbo : List D3D11Vertex
  offscreen_vbo : List D3D11Vertex
  offset : Nat
  stride : Nat

/-- `DrawQuad::new`: creates the final and offscreen vertex buffers from the
static data and stores `offset = 0` and
`stride = size_of::<D3D11Vertex>()`. The device error paths of
`CreateBuffer` concern the external backend object, not the modelled
state. -/
def DrawQuad.new : DrawQuad :=
  { final_vbo := FINAL_VBO_DATA
    offscreen_vbo := OFFSCREEN_VBO_DATA
    offset := 0
    stride := d3d11VertexSize }

/-- `DrawQuad::bind_vertices`: sets the primitive topology to triangle strip
and binds, at start slot 0, exactly one vertex buffer — the offscreen or the
final one according to the quad type — with the stored stride and offset. -/
def DrawQuad.bind_vertices (dq : DrawQuad) (vbo_type : QuadType)
    (st : ContextState) : ContextState :=
  { st with
    topology := some Topology.triangleStrip
    vertexBuffers := some
      { startSlot := 0
        buffers := [match vbo_type with
          | QuadType.Offscreen => dq.offscreen_vbo
          | QuadType.Final => dq.final_vbo]
        stride := dq.stride
        offset := dq.offset } }

/-- Modelled from the spec (§4.6 step 4): the frame loop draws every pass
with the offscreen quad in normalized device coordinates, except the final
pass, which is drawn with the viewport-relative quad into the
caller-provided viewport framebuffer. Pass indices run from 0 to
`passCount - 1`; the Direct3D 11 frame loop itself is not part of the
verified tree. -/
def quadTypeForPass (i passCount : Nat) : QuadType :=
  if i = passCount - 1 then QuadType.Final else QuadType.Offscreen

end D3D11

namespace Presets

/-! ## Preset parameter metadata

Embedding of `librashader::presets::get_parameter_meta` from
`librashader/src/lib.rs`. The `ShaderSource::load` capability it calls lives
in `librashader-preprocess`, outside the verified tree, so the function is
parameterized by an arbitrary load capability and the supporting data types
are modelled from the spec. -/

/-- Modelled from the spec (§7 error taxonomy): a `PreprocessError` is an
unresolved include, an include cycle, or a malformed parameter directive.
`get_parameter_meta` only propagates it, untouched. -/
inductive PreprocessError where
  | unresolvedInclude : String → PreprocessError
  | includeCycle : List String → PreprocessError
  | malformedParameterDirective : String → PreprocessError
deriving DecidableEq

/-- Modelled from the spec (§3, §6): one extracted shader parameter with its
name, description and numeric data; the f32 numeric fields are embedded as
rationals. -/
structure ShaderParameter where
  name : String
  description : String
  initial : Rat
  minimum : Rat
  maximum : Rat
  step : Rat
deriving DecidableEq

/-- Modelled from the spec (§3, §4.3): the include-expanded source of one
pass, reduced to the data `get_parameter_meta` reads from it — the extracted
parameter list, in declaration order. Within one source the extraction map
keeps the first declaration of each name, so names are unique within one
returned list; this uniqueness is stated as a hypothesis where a theorem
needs it, not enforced by the type. -/
structure ShaderSource where
  parameters : List ShaderParameter
deriving DecidableEq

/-- One pass entry of a parsed preset; `get_parameter_meta` reads its `name`,
the shader path. -/
structure ShaderPassConfig where
  name : String
deriving DecidableEq

/-- A parsed shader preset, reduced to the `shaders` sequence that
`get_parameter_meta` iterates over. -/
structure ShaderPreset where
  shaders : List ShaderPassConfig
deriving DecidableEq

/-- Rust `collect::<Result<Vec<_>, E>>()` over a sequence of results: stop
at the first error, otherwise return the list of successes. -/
def collectResults {ε α : Type} : List (Except ε α) → Except ε (List α)
  | [] => Except.ok []
  | x :: xs =>
    match x with
    | Except.error e => Except.error e
    | Except.ok a =>
      match collectResults xs with
      | Except.error e => Except.error e
      | Except.ok as => Except.ok (a :: as)

/-- Embedding of `presets::get_parameter_meta`: map loading over the preset
passes, each success reduced to its parameter list, collect into a single
result (first error wins, as with Rust `collect` into `Result`), then
flatten the per-pass parameter lists into one sequence. -/
def get_parameter_meta (load : String → Except PreprocessError ShaderSource)
    (preset : ShaderPreset) : Except PreprocessError (List ShaderParameter) :=
  match collectResults
      (preset.shaders.map (fun s => (load s.name).map ShaderSource.parameters)) with
  | Except.error e => Except.error e
  | Except.ok ls => Except.ok ls.flatten

/-- A load capability under which two different passes declare the same
parameter name with different defaults; each pass on its own has unique
names, and any other path fails to load. -/
def loadDup : String → Except PreprocessError ShaderSource :=
  fun s =>
    if s = "a.slang" then Except.ok ⟨[⟨"p", "param", 1, 0, 2, 1⟩]⟩
    else if s = "b.slang" then Except.ok ⟨[⟨"p", "param", 2, 0, 2, 1⟩]⟩
    else Except.error (PreprocessError.unresolvedInclude s)

/-- Two-pass preset naming the two loadable shaders of `loadDup`. -/
def presetDup : ShaderPreset := ⟨[⟨"a.slang"⟩, ⟨"b.slang"⟩]⟩

/-- Two-pass preset whose second shader path does not load under
`loadDup`. -/
def presetBad : ShaderPreset := ⟨[⟨"a.slang"⟩, ⟨"c.slang"⟩]⟩

end Presets

namespace CApi

/-! ## Context enums, viewport and handles -/

/-- The C API orientation wildcard enum `LIBRA_PRESET_CTX_ORIENTATION`,
with exactly its declared variants. -/
inductive LIBRA_PRESET_CTX_ORIENTATION where
  | Vertical : LIBRA_PRESET_CTX_ORIENTATION
  | Horizontal : LIBRA_PRESET_CTX_ORIENTATION
deriving DecidableEq, Fintype

/-- The internal orientation type of the wildcard context. Its declaration
lives in `librashader-presets`, outside the verified tree; the two variant
names are the ones the conversion in `ctypes.rs` targets, matching the spec
(§4.1) orientation wildcard values vertical/horizontal. -/
inductive Orientation where
  | Vertical : Orientation
  | Horizontal : Orientation
deriving DecidableEq, Fintype

/-- The C API runtime wildcard enum `LIBRA_PRESET_CTX_RUNTIME`, with exactly
its declared variants. -/
inductive LIBRA_PRESET_CTX_RUNTIME where
  | None : LIBRA_PRESET_CTX_RUNTIME
  | GlCore : LIBRA_PRESET_CTX_RUNTIME
  | Vulkan : LIBRA_PRESET_CTX_RUNTIME
  | D3D11 : LIBRA_PRESET_CTX_RUNTIME
  | D3D12 : LIBRA_PRESET_CTX_RUNTIME
  | Metal : LIBRA_PRESET_CTX_RUNTIME
deriving DecidableEq, Fintype

/-- The internal video driver type of the wildcard context, declared in
`librashader-presets` outside the verified tree; the six variant names are
the ones the conversion in `ctypes.rs` targets (spec §4.1: none, GL-core,
Vulkan, D3D11, D3D12, Metal). -/
inductive VideoDriver where
  | None : VideoDriver
  | GlCore : VideoDriver
  | Vulkan : VideoDriver
  | Direct3D11 : VideoDriver
  | Direct3D12 : VideoDriver
  | Metal : VideoDriver
deriving DecidableEq, Fintype

/-- The `From` conversion of the orientation enum into `Orientation`. -/
def Orientation.fromCtx : LIBRA_PRESET_CTX_ORIENTATION → Orientation
  | .Vertical => .Vertical
  | .Horizontal => .Horizontal

/-- The `From` conversion of the runtime enum into `VideoDriver`. -/
def VideoDriver.fromCtx : LIBRA_PRESET_CTX_RUNTIME → VideoDriver
  | .None => .None
  | .GlCore => .GlCore
  | .Vulkan => .Vulkan
  | .D3D11 => .Direct3D11
  | .D3D12 => .Direct3D12
  | .Metal => .Metal

/-- The C API viewport struct `libra_viewport_t`: an origin offset `x`, `y`
(f32, embedded as rationals) and a `width` and `height` (u32, embedded as
naturals — no arithmetic that could overflow is modelled on them). -/
structure libra_viewport_t where
  x : Rat
  y : Rat
  width : Nat
  height : Nat
deriving DecidableEq

/-- The target rectangle a viewport value denotes: the points offset by
(x, y) and extending by width and height. -/
def libra_viewport_t.region (v : libra_viewport_t) : Set (Rat × Rat) :=
  {p : Rat × Rat |
    v.x ≤ p.1 ∧ p.1 < v.x + v.width ∧ v.y ≤ p.2 ∧ p.2 < v.y + v.height}

/-- A non-null pointer to a `T` object, mirroring `std::ptr::NonNull<T>`:
an address that is never zero. -/
structure NonNull (T : Type) where
  addr : Nat
  addr_ne : addr ≠ 0

/-- An `Option<NonNull<T>>` C API handle: `none` is the null handle meaning
"no object". -/
def Handle (T : Type) : Type := Option (NonNull T)

/-- The C ABI value of a handle: the null-pointer optimization encodes
`none` as the null pointer and `some p` as the address of `p`. -/
def encodePtr {T : Type} : Handle T → Nat
  | none => 0
  | some p => p.addr

/-- Total embedding of handle dereference at the ABI boundary: the null
pointer decodes to `none`, any other value to the corresponding non-null
handle. -/
def decodePtr {T : Type} (n : Nat) : Handle T :=
  if h : n = 0 then none else some ⟨n, h⟩

/-- Payload of a wildcard context handle; the object is foreign to the
verified tree and only its identity matters here. -/
inductive WildcardContext where
  | mk : WildcardContext

/-- Payload of an error handle; foreign to the verified tree. -/
inductive LibrashaderError where
  | mk : LibrashaderError

/-- Payload of a Vulkan filter chain handle; foreign to the verified
tree. -/
inductive FilterChainVulkan where
  | mk : FilterChainVulkan

/-- Payload of a Direct3D 11 filter chain handle; foreign to the verified
tree. -/
inductive FilterChainD3D11 where
  | mk : FilterChainD3D11

/-- Payload of a Direct3D 12 filter chain handle; foreign to the verified
tree. -/
inductive FilterChainD3D12 where
  | mk : FilterChainD3D12

/-- Payload of a Direct3D 9 filter chain handle; foreign to the verified
tree. -/
inductive FilterChainD3D9 where
  | mk : FilterChainD3D9

/-- Payload of an OpenGL filter chain handle; foreign to the verified
tree. -/
inductive FilterChainGL where
  | mk : FilterChainGL

/-- Payload of a Metal filter chain handle; foreign to the verified tree. -/
inductive FilterChainMetal where
  | mk : FilterChainMetal

/-- Handle to a shader preset object. -/
def libra_shader_preset_t : Type := Handle Presets.ShaderPreset

/-- Handle to a preset wildcard context object. -/
def libra_preset_ctx_t : Type := Handle WildcardContext

/-- Handle to a librashader error object. -/
def libra_error_t : Type := Handle LibrashaderError

/-- Handle to an OpenGL filter chain. -/
def libra_gl_filter_chain_t : Type := Handle FilterChainGL

/-- Handle to a Direct3D 11 filter chain. -/
def libra_d3d11_filter_chain_t : Type := Handle FilterChainD3D11

/-- Handle to a Direct3D 12 filter chain. -/
def libra_d3d12_filter_chain_t : Type := Handle FilterChainD3D12

/-- Handle to a Direct3D 9 filter chain. -/
def libra_d3d9_filter_chain_t : Type := Handle FilterChainD3D9

/-- Handle to a Vulkan filter chain. -/
def libra_vk_filter_chain_t : Type := Handle FilterChainVulkan

/-- Handle to a Metal filter chain. -/
def libra_mtl_filter_chain_t : Type := Handle FilterChainMetal

end CApi

end Librashader

namespace Librashader

namespace CApi

theorem foldl_lastSetStep_acc {V : Type} (f : Nat) (ss : List (Setter V)) :
    ∀ acc : Option (Setter V),
      ss.foldl (lastSetStep f) acc = (ss.foldl (lastSetStep f) none).or acc := by
  induction ss with
  | nil => intro acc; rfl
  | cons s ss ih =>
    intro acc
    rw [List.foldl_cons, List.foldl_cons, ih (lastSetStep f acc s),
      ih (lastSetStep f none s), Option.or_assoc]
    congr 1
    unfold lastSetStep
    split <;> rfl

theorem map_getD_or {α β : Type} (h : α → β) (A B : Option α) (d : β) :
    (Option.map h (A.or B)).getD d = (Option.map h A).getD ((Option.map h B).getD d) := by
  cases A <;> cases B <;> rfl

theorem foldl_applySetter_eval {V : Type} (neg : V → V) (input : Nat → V) (f : Nat)
    (ss : List (Setter V)) : ∀ opts : Nat → V,
      ss.foldl (applySetter neg input) opts f =
        ((lastSetterFor f ss).map (setterValue neg input)).getD (opts f) := by
  induction ss with
  | nil => intro opts; rfl
  | cons s ss ih =>
    intro opts
    rw [List.foldl_cons, ih (applySetter neg input opts s)]
    unfold lastSetterFor
    rw [List.foldl_cons, foldl_lastSetStep_acc f ss (lastSetStep f none s)]
    cases h : ss.foldl (lastSetStep f) none with
    | some t => rfl
    | none =>
      by_cases hsf : s.field = f
      · subst hsf
        simp [lastSetStep, applySetter, Option.or, Function.update_same]
      · have hfs : ¬(f = s.field) := fun hx => hsf hx.symm
        simp [lastSetStep, applySetter, hsf, hfs, Option.or, Function.update_apply]

theorem from_uninit_eval {V : Type} (neg : V → V) (decl : List (Nat × List (Setter V)))
    (value : CStruct V) (f : Nat) : ∀ baseline : Nat → V,
      from_uninit neg decl baseline value f =
        ((lastSetterFor f (applicableSetters decl value.version)).map
          (setterValue neg value.fields)).getD (baseline f) := by
  induction decl with
  | nil => intro baseline; rfl
  | cons g decl ih =>
    intro baseline
    show from_uninit neg decl
      (applyGroup neg value.fields value.version baseline g) value f = _
    rw [ih]
    by_cases hg : g.1 ≤ value.version
    · have happ : applicableSetters (g :: decl) value.version =
          g.2 ++ applicableSetters decl value.version := by
        simp [applicableSetters, List.filter_cons, hg]
      have hgroup : (applyGroup neg value.fields value.version baseline g) f =
          ((lastSetterFor f g.2).map (setterValue neg value.fields)).getD (baseline f) := by
        unfold applyGroup
        rw [if_pos hg]
        exact foldl_applySetter_eval neg value.fields f g.2 baseline
      have hsplit : lastSetterFor f (g.2 ++ applicableSetters decl value.version) =
          (lastSetterFor f (applicableSetters decl value.version)).or
            (lastSetterFor f g.2) := by
        unfold lastSetterFor
        rw [List.foldl_append]
        exact foldl_lastSetStep_acc f _ _
      rw [hgroup, happ, hsplit, map_getD_or]
    · have happ : applicableSetters (g :: decl) value.version =
          applicableSetters decl value.version := by
        simp [applicableSetters, List.filter_cons, hg]
      rw [happ]
      unfold applyGroup
      rw [if_neg hg]

theorem mem_applicableSetters {V : Type} {decl : List (Nat × List (Setter V))}
    {v : Nat} {s : Setter V} :
    s ∈ applicableSetters decl v ↔ ∃ g ∈ decl, g.1 ≤ v ∧ s ∈ g.2 := by
  simp only [applicableSetters, List.mem_flatten, List.mem_map, List.mem_filter,
    decide_eq_true_eq]
  constructor
  · rintro ⟨l, ⟨g, ⟨hg, hk⟩, rfl⟩, hs⟩
    exact ⟨g, hg, hk, hs⟩
  · rintro ⟨g, hg, hk, hs⟩
    exact ⟨g.2, ⟨g, ⟨hg, hk⟩, rfl⟩, hs⟩

theorem lastSetterFor_eq_none {V : Type} {f : Nat} {ss : List (Setter V)}
    (h : ∀ s ∈ ss, s.field ≠ f) : lastSetterFor f ss = none := by
  induction ss with
  | nil => rfl
  | cons s ss ih =>
    unfold lastSetterFor at ih ⊢
    rw [List.foldl_cons]
    have hstep : lastSetStep f none s = none := by
      unfold lastSetStep
      rw [if_neg (h s (by simp))]
    rw [hstep]
    exact ih (fun t ht => h t (List.mem_cons_of_mem s ht))

/-- C1: for a config_struct declaration whose version groups are listed in
ascending version order (as all declarations in the C API are),
`from_uninit` builds the options value by starting from the default baseline
and applying the declared field-setters in ascending API-version order, i.e.
it coincides with the versioned builder described by the spec; moreover a
group declared at version `V` has no effect when the version read from the
caller struct is below `V`. -/
theorem from_uninit_is_ascending_versioned_builder {V : Type} (neg : V → V)
    (decl : List (Nat × List (Setter V))) (baseline : Nat → V) (value : CStruct V)
    (hsorted : List.Sorted (fun a b => a.1 ≤ b.1) decl) :
    from_uninit neg decl baseline value = specVersionedBuilder neg decl baseline value ∧
    ∀ g ∈ decl, ∀ opts : Nat → V, value.version < g.1 →
      applyGroup neg value.fields value.version opts g = opts := by
  constructor
  · unfold from_uninit specVersionedBuilder
    rw [List.Sorted.insertionSort_eq hsorted]
  · intro g _ opts hlt
    unfold applyGroup
    rw [if_neg (by omega)]

/-- Witness for C1 at the doc-example declaration, requested version 1. -/
theorem from_uninit_is_ascending_versioned_builder_holds :
    List.Sorted (fun a b : Nat × List (Setter Bool) => a.1 ≤ b.1) exampleOptDecl ∧
    (from_uninit Bool.not exampleOptDecl (fun _ => false) ⟨1, fun _ => true⟩ =
      specVersionedBuilder Bool.not exampleOptDecl (fun _ => false) ⟨1, fun _ => true⟩ ∧
    ∀ g ∈ exampleOptDecl, ∀ opts : Nat → Bool, (1 : Nat) < g.1 →
      applyGroup Bool.not (fun _ => true) 1 opts g = opts) :=
  ⟨by decide,
   from_uninit_is_ascending_versioned_builder Bool.not exampleOptDecl
     (fun _ => false) ⟨1, fun _ => true⟩ (by decide)⟩

/-- C6: a field that is not named by any setter of a version group applicable
at the requested version keeps its `Default::default()` baseline value: only
fields reachable by an applicable versioned setter are changed. -/
theorem from_uninit_undeclared_field_keeps_default {V : Type} (neg : V → V)
    (decl : List (Nat × List (Setter V))) (baseline : Nat → V) (value : CStruct V)
    (f : Nat)
    (h : ∀ g ∈ decl, g.1 ≤ value.version → ∀ s ∈ g.2, s.field ≠ f) :
    from_uninit neg decl baseline value f = baseline f := by
  rw [from_uninit_eval, lastSetterFor_eq_none]
  · rfl
  · intro s hs
    rcases mem_applicableSetters.mp hs with ⟨g, hg, hk, hsg⟩
    exact h g hg hk s hsg

/-- Witness for C6: in the doc-example declaration no applicable group names
field 3, so field 3 stays at its baseline value. -/
theorem from_uninit_undeclared_field_keeps_default_holds :
    (∀ g ∈ exampleOptDecl, g.1 ≤ 1 → ∀ s ∈ g.2, s.field ≠ 3) ∧
    from_uninit Bool.not exampleOptDecl (fun _ => false) ⟨1, fun _ => true⟩ 3 = false :=
  ⟨by decide,
   from_uninit_undeclared_field_keeps_default Bool.not exampleOptDecl
     (fun _ => false) ⟨1, fun _ => true⟩ 3 (by decide)⟩

/-- C8: when the same field is declared with a literal default at a lower
version and as a plain (or negated) pointer read at a higher version `vhi`,
with the groups in ascending order, the highest applicable declaration wins:
below `vhi` (and at or above the lower version) the literal is produced, at
or above `vhi` the caller-supplied value (negated for the negated-read
variant) is produced; and a version-0 declaration applies at every requested
version. -/
theorem from_uninit_highest_applicable_declaration_wins {V : Type} (neg : V → V)
    (baseline : Nat → V) (value : CStruct V) (vlo vhi f : Nat) (c : V)
    (hlo : vlo ≤ value.version) :
    (value.version < vhi →
      from_uninit neg (literalThenPointerDecl vlo vhi f c) baseline value f = c ∧
      from_uninit neg (literalThenNegDecl vlo vhi f c) baseline value f = c) ∧
    (vhi ≤ value.version →
      from_uninit neg (literalThenPointerDecl vlo vhi f c) baseline value f =
        value.fields f ∧
      from_uninit neg (literalThenNegDecl vlo vhi f c) baseline value f =
        neg (value.fields f)) ∧
    (∀ s : Setter V,
      from_uninit neg [(0, [s])] baseline value s.field =
        setterValue neg value.fields s) := by
  refine ⟨?_, ?_, ?_⟩
  · intro hhi
    constructor <;>
    · simp only [literalThenPointerDecl, literalThenNegDecl, from_uninit,
        List.foldl_cons, List.foldl_nil, applyGroup]
      rw [if_pos hlo, if_neg (by omega)]
      simp [applySetter, setterValue, Function.update_same]
  · intro hhi
    constructor <;>
    · simp only [literalThenPointerDecl, literalThenNegDecl, from_uninit,
        List.foldl_cons, List.foldl_nil, applyGroup]
      rw [if_pos hlo, if_pos hhi]
      simp [applySetter, setterValue, Function.update_same]
  · intro s
    simp only [from_uninit, List.foldl_cons, List.foldl_nil, applyGroup]
    rw [if_pos (Nat.zero_le _)]
    simp [applySetter, setterValue, Function.update_same]

/-- Witness for C8: field 2 declared as literal `true` at version 0 and as a
pointer read at version 1, requested version 0, yields the literal. -/
theorem from_uninit_highest_applicable_declaration_wins_holds :
    (0 : Nat) ≤ 0 ∧
    (((0 : Nat) < 1 →
      from_uninit Bool.not (literalThenPointerDecl 0 1 2 true) (fun _ => false)
        ⟨0, fun _ => false⟩ 2 = true ∧
      from_uninit Bool.not (literalThenNegDecl 0 1 2 true) (fun _ => false)
        ⟨0, fun _ => false⟩ 2 = true) ∧
    ((1 : Nat) ≤ 0 →
      from_uninit Bool.not (literalThenPointerDecl 0 1 2 true) (fun _ => false)
        ⟨0, fun _ => false⟩ 2 = false ∧
      from_uninit Bool.not (literalThenNegDecl 0 1 2 true) (fun _ => false)
        ⟨0, fun _ => false⟩ 2 = Bool.not false) ∧
    (∀ s : Setter Bool,
      from_uninit Bool.not [(0, [s])] (fun _ => false) ⟨0, fun _ => false⟩ s.field =
        setterValue Bool.not (fun _ => false) s)) :=
  ⟨Nat.le_refl 0,
   from_uninit_highest_applicable_declaration_wins Bool.not (fun _ => false)
     ⟨0, fun _ => false⟩ 0 1 2 true (Nat.le_refl 0)⟩

end CApi

namespace D3D11

/-- C2: `bind_vertices` with `Offscreen` binds the quad whose four vertex
positions are (-1,-1), (-1,1), (1,-1), (1,1) — the full-screen quad in
normalized device coordinates — and with `Final` the quad whose positions
are (0,0), (0,1), (1,0), (1,1), the viewport-relative quad; per the frame
loop, a pass uses the Final quad exactly when it is the final pass. -/
theorem bind_vertices_binds_ndc_and_viewport_quads (st : ContextState) :
    ((DrawQuad.new.bind_vertices QuadType.Offscreen st).vertexBuffers =
      some ⟨0, [OFFSCREEN_VBO_DATA], d3d11VertexSize, 0⟩) ∧
    OFFSCREEN_VBO_DATA.map D3D11Vertex.position =
      [(-1, -1), (-1, 1), (1, -1), (1, 1)] ∧
    ((DrawQuad.new.bind_vertices QuadType.Final st).vertexBuffers =
      some ⟨0, [FINAL_VBO_DATA], d3d11VertexSize, 0⟩) ∧
    FINAL_VBO_DATA.map D3D11Vertex.position = [(0, 0), (0, 1), (1, 0), (1, 1)] ∧
    (∀ i n : Nat, i < n → (quadTypeForPass i n = QuadType.Final ↔ i = n - 1)) := by
  refine ⟨rfl, by decide, rfl, by decide, ?_⟩
  intro i n _
  unfold quadTypeForPass
  split
  next h => simp [h]
  next h => simp [h]

/-- Witness for C2 on the empty context state and a three-pass chain. -/
theorem bind_vertices_binds_ndc_and_viewport_quads_holds :
    ((DrawQuad.new.bind_vertices QuadType.Offscreen ⟨none, none⟩).vertexBuffers =
      some ⟨0, [OFFSCREEN_VBO_DATA], d3d11VertexSize, 0⟩) ∧
    (2 : Nat) < 3 ∧ (quadTypeForPass 2 3 = QuadType.Final ↔ 2 = 3 - 1) :=
  ⟨(bind_vertices_binds_ndc_and_viewport_quads ⟨none, none⟩).1,
   by decide,
   (bind_vertices_binds_ndc_and_viewport_quads ⟨none, none⟩).2.2.2.2 2 3 (by decide)⟩

/-- C9: every `bind_vertices` call, for both quad types, sets the triangle
strip topology and binds exactly one vertex buffer at input slot 0 with
stride `size_of::<D3D11Vertex>()` = 32 bytes and offset 0; the two static
quads have identical texture coordinates and colors and differ only in
their vertex positions. -/
theorem bind_vertices_topology_slot_stride (q : QuadType) (st : ContextState) :
    (DrawQuad.new.bind_vertices q st).topology = some Topology.triangleStrip ∧
    (∃ b : VertexBufferBinding,
      (DrawQuad.new.bind_vertices q st).vertexBuffers = some b ∧
      b.startSlot = 0 ∧ b.buffers.length = 1 ∧ b.stride = d3d11VertexSize ∧
      b.offset = 0) ∧
    d3d11VertexSize = 32 ∧
    OFFSCREEN_VBO_DATA.map D3D11Vertex.texcoord =
      FINAL_VBO_DATA.map D3D11Vertex.texcoord ∧
    OFFSCREEN_VBO_DATA.map D3D11Vertex.color = FINAL_VBO_DATA.map D3D11Vertex.color ∧
    OFFSCREEN_VBO_DATA.map D3D11Vertex.position ≠
      FINAL_VBO_DATA.map D3D11Vertex.position :=
  ⟨rfl, ⟨_, rfl, rfl, rfl, rfl, rfl⟩, rfl, by decide, by decide, by decide⟩

end D3D11

namespace Presets

theorem collectResults_ok_iff {ε α : Type} {xs : List (Except ε α)} {l : List α} :
    collectResults xs = Except.ok l ↔
      List.Forall₂ (fun x a => x = Except.ok a) xs l := by
  induction xs generalizing l with
  | nil =>
    constructor
    · intro h
      cases h
      exact List.Forall₂.nil
    · intro h
      cases h
      rfl
  | cons x xs ih =>
    cases x with
    | error e =>
      constructor
      · intro h
        exact absurd h (by simp [collectResults])
      · intro h
        cases h with
        | cons h1 h2 => cases h1
    | ok a =>
      constructor
      · intro h
        unfold collectResults at h
        cases hrec : collectResults xs with
        | error e =>
          rw [hrec] at h
          cases h
        | ok as =>
          rw [hrec] at h
          cases h
          exact List.Forall₂.cons rfl (ih.mp hrec)
      · intro h
        cases h with
        | cons h1 h2 =>
          cases h1
          unfold collectResults
          rw [ih.mpr h2]

theorem collectResults_error_iff {ε α : Type} {xs : List (Except ε α)} :
    (∃ e, collectResults xs = Except.error e) ↔
      ∃ x ∈ xs, ∃ e, x = Except.error e := by
  induction xs with
  | nil => simp [collectResults]
  | cons x xs ih =>
    cases x with
    | error e =>
      constructor
      · intro _
        exact ⟨Except.error e, List.mem_cons_self _ _, e, rfl⟩
      · intro _
        exact ⟨e, rfl⟩
    | ok a =>
      cases hrec : collectResults xs with
      | error e2 =>
        constructor
        · intro _
          rcases ih.mp ⟨e2, hrec⟩ with ⟨y, hy, hey⟩
          exact ⟨y, List.mem_cons_of_mem _ hy, hey⟩
        · intro _
          refine ⟨e2, ?_⟩
          unfold collectResults
          rw [hrec]
      | ok as =>
        constructor
        · rintro ⟨e, he⟩
          unfold collectResults at he
          rw [hrec] at he
          cases he
        · rintro ⟨y, hy, e, hey⟩
          rcases List.mem_cons.mp hy with h | h
          · subst h
            cases hey
          · rcases ih.mpr ⟨y, h, e, hey⟩ with ⟨e2, he2⟩
            rw [hrec] at he2
            cases he2

theorem collectResults_first_error {ε α : Type} (pre : List (Except ε α)) (e : ε)
    (post : List (Except ε α)) (h : ∀ x ∈ pre, ∃ a, x = Except.ok a) :
    collectResults (pre ++ Except.error e :: post) = Except.error e := by
  induction pre with
  | nil => rfl
  | cons x pre ih =>
    rcases h x (List.mem_cons_self _ _) with ⟨a, rfl⟩
    have hrec := ih (fun y hy => h y (List.mem_cons_of_mem _ hy))
    show collectResults (Except.ok a :: (pre ++ Except.error e :: post)) = _
    unfold collectResults
    rw [hrec]

theorem forall2_mem_right {α β : Type} {r : α → β → Prop} {l1 : List α}
    {l2 : List β} (h : List.Forall₂ r l1 l2) : ∀ b ∈ l2, ∃ a ∈ l1, r a b := by
  induction h with
  | nil =>
    intro b hb
    cases hb
  | cons h1 h2 ih =>
    intro b hb
    rcases List.mem_cons.mp hb with rfl | hb2
    · exact ⟨_, List.mem_cons_self _ _, h1⟩
    · rcases ih b hb2 with ⟨a, ha, hr⟩
      exact ⟨a, List.mem_cons_of_mem _ ha, hr⟩

theorem except_map_eq_error_iff {α β ε : Type} (g : α → β)
    (x : Except ε α) (e : ε) :
    x.map g = Except.error e ↔ x = Except.error e := by
  cases x <;> simp [Except.map]

/-- C4: `get_parameter_meta` fails exactly when loading of at least one pass
named in the preset fails; when the passes before a failing pass all load,
the call returns that failing pass's `PreprocessError`, never skipping it;
and on success it returns the concatenation of every pass's parameters, in
pass order. -/
theorem get_parameter_meta_error_propagation
    (load : String → Except PreprocessError ShaderSource) (preset : ShaderPreset) :
    ((∃ e, get_parameter_meta load preset = Except.error e) ↔
      ∃ s ∈ preset.shaders, ∃ e, load s.name = Except.error e) ∧
    (∀ pre s post e, preset.shaders = pre ++ s :: post →
      (∀ t ∈ pre, ∃ src, load t.name = Except.ok src) →
      load s.name = Except.error e →
      get_parameter_meta load preset = Except.error e) ∧
    (∀ l, get_parameter_meta load preset = Except.ok l →
      ∃ parts : List (List ShaderParameter),
        List.Forall₂
          (fun s pl => ∃ src, load s.name = Except.ok src ∧ src.parameters = pl)
          preset.shaders parts ∧
        l = parts.flatten) := by
  have herr : ∀ e, get_parameter_meta load preset = Except.error e ↔
      collectResults
        (preset.shaders.map (fun s => (load s.name).map ShaderSource.parameters)) =
        Except.error e := by
    intro e
    unfold get_parameter_meta
    cases h : collectResults
        (preset.shaders.map (fun s => (load s.name).map ShaderSource.parameters)) with
    | error e2 => simp
    | ok ls => simp
  refine ⟨?_, ?_, ?_⟩
  · constructor
    · rintro ⟨e, he⟩
      have := collectResults_error_iff.mp ⟨e, (herr e).mp he⟩
      rcases this with ⟨x, hx, e2, hex⟩
      rcases List.mem_map.mp hx with ⟨s, hs, rfl⟩
      exact ⟨s, hs, e2, (except_map_eq_error_iff _ _ _).mp hex⟩
    · rintro ⟨s, hs, e, he⟩
      have : ∃ x ∈ preset.shaders.map
          (fun s => (load s.name).map ShaderSource.parameters), ∃ e, x = Except.error e := by
        refine ⟨(load s.name).map ShaderSource.parameters, List.mem_map_of_mem _ hs, e, ?_⟩
        exact (except_map_eq_error_iff _ _ _).mpr he
      rcases collectResults_error_iff.mpr this with ⟨e2, he2⟩
      exact ⟨e2, (herr e2).mpr he2⟩
  · intro pre s post e hsplit hpre hfail
    refine (herr e).mpr ?_
    rw [hsplit, List.map_append, List.map_cons]
    have hserr : (load s.name).map ShaderSource.parameters = Except.error e :=
      (except_map_eq_error_iff _ _ _).mpr hfail
    rw [hserr]
    refine collectResults_first_error _ e _ ?_
    intro x hx
    rcases List.mem_map.mp hx with ⟨t, ht, rfl⟩
    rcases hpre t ht with ⟨src, hsrc⟩
    exact ⟨src.parameters, by rw [hsrc]; rfl⟩
  · intro l hl
    unfold get_parameter_meta at hl
    cases hc : collectResults
        (preset.shaders.map (fun s => (load s.name).map ShaderSource.parameters)) with
    | error e =>
      rw [hc] at hl
      cases hl
    | ok ls =>
      rw [hc] at hl
      cases hl
      refine ⟨ls, ?_, rfl⟩
      have h2 := collectResults_ok_iff.mp hc
      have h3 := (List.forall₂_map_left_iff).mp h2
      refine h3.imp ?_
      intro a b hab
      cases hload : load a.name with
      | error e =>
        rw [hload] at hab
        cases hab
      | ok src =>
        rw [hload] at hab
        cases hab
        exact ⟨src, rfl, rfl⟩

/-- Witness for C4: a preset whose second pass fails to load produces
exactly that pass's error. -/
theorem get_parameter_meta_error_propagation_holds :
    get_parameter_meta loadDup presetBad =
      Except.error (PreprocessError.unresolvedInclude "c.slang") :=
  (get_parameter_meta_error_propagation loadDup presetBad).2.1
    [⟨"a.slang"⟩] ⟨"c.slang"⟩ [] (PreprocessError.unresolvedInclude "c.slang") rfl
    (by
      intro t ht
      rcases List.mem_singleton.mp ht with rfl
      exact ⟨⟨[⟨"p", "param", 1, 0, 2, 1⟩]⟩, by simp [loadDup]⟩)
    (by simp [loadDup])

/-- C3 counterexample: two passes that both declare parameter name "p" (each
pass with unique names on its own) yield a parameter sequence containing two
distinct parameters with the same name — the later conflicting declaration
is kept, not ignored. -/
theorem get_parameter_meta_keeps_cross_pass_duplicates :
    get_parameter_meta loadDup presetDup =
      Except.ok [⟨"p", "param", 1, 0, 2, 1⟩, ⟨"p", "param", 2, 0, 2, 1⟩] ∧
    (⟨"p", "param", 1, 0, 2, 1⟩ : ShaderParameter).name =
      (⟨"p", "param", 2, 0, 2, 1⟩ : ShaderParameter).name ∧
    (⟨"p", "param", 1, 0, 2, 1⟩ : ShaderParameter) ≠
      ⟨"p", "param", 2, 0, 2, 1⟩ := by
  exact ⟨rfl, rfl, by decide⟩

/-- C3 amended: the parameter sequence is the concatenation of the per-pass
parameter lists; names are unique within each pass's contribution (by the
per-shader parameter map), but passes are concatenated without cross-pass
deduplication, so two passes declaring the same name both appear, without
error. -/
theorem get_parameter_meta_params_unique_within_pass
    (load : String → Except PreprocessError ShaderSource) (preset : ShaderPreset)
    (l : List ShaderParameter)
    (huniq : ∀ s src, load s = Except.ok src →
      (src.parameters.map ShaderParameter.name).Nodup)
    (h : get_parameter_meta load preset = Except.ok l) :
    ∃ parts : List (List ShaderParameter),
      l = parts.flatten ∧ parts.length = preset.shaders.length ∧
      ∀ p ∈ parts, (p.map ShaderParameter.name).Nodup := by
  unfold get_parameter_meta at h
  cases hc : collectResults
      (preset.shaders.map (fun s => (load s.name).map ShaderSource.parameters)) with
  | error e =>
    rw [hc] at h
    cases h
  | ok ls =>
    rw [hc] at h
    cases h
    have h2 := collectResults_ok_iff.mp hc
    refine ⟨ls, rfl, ?_, ?_⟩
    · have := h2.length_eq
      rw [List.length_map] at this
      exact this.symm
    · intro p hp
      rcases forall2_mem_right h2 p hp with ⟨x, hx, hxe⟩
      rcases List.mem_map.mp hx with ⟨s, _, rfl⟩
      cases hload : load s.name with
      | error e =>
        rw [hload] at hxe
        cases hxe
      | ok src =>
        rw [hload] at hxe
        cases hxe
        exact huniq s.name src hload

/-- Witness for the amended C3 at the duplicate-declaring preset. -/
theorem get_parameter_meta_params_unique_within_pass_holds :
    (∀ s src, loadDup s = Except.ok src →
      (src.parameters.map ShaderParameter.name).Nodup) ∧
    get_parameter_meta loadDup presetDup =
      Except.ok [⟨"p", "param", 1, 0, 2, 1⟩, ⟨"p", "param", 2, 0, 2, 1⟩] ∧
    ∃ parts : List (List ShaderParameter),
      ([⟨"p", "param", 1, 0, 2, 1⟩, ⟨"p", "param", 2, 0, 2, 1⟩] :
        List ShaderParameter) = parts.flatten ∧
      parts.length = presetDup.shaders.length ∧
      ∀ p ∈ parts, (p.map ShaderParameter.name).Nodup := by
  have huq : ∀ s src, loadDup s = Except.ok src →
      (src.parameters.map ShaderParameter.name).Nodup := by
    intro s src h
    unfold loadDup at h
    split_ifs at h with h1 h2
    · cases h
      decide
    · cases h
      decide
  have hok : get_parameter_meta loadDup presetDup =
      Except.ok [⟨"p", "param", 1, 0, 2, 1⟩, ⟨"p", "param", 2, 0, 2, 1⟩] := rfl
  exact ⟨huq, hok,
    get_parameter_meta_params_unique_within_pass loadDup presetDup _ huq hok⟩

end Presets

namespace CApi

/-- C5: the orientation wildcard enum has exactly the variants Vertical and
Horizontal and the runtime wildcard enum exactly None, GlCore, Vulkan,
D3D11, D3D12, Metal; the conversions into `Orientation` and `VideoDriver`
are total on these closed sets, map each variant to its same-named
counterpart (D3D11 to Direct3D11, D3D12 to Direct3D12), and are
injective. -/
theorem context_enum_conversions_total_injective :
    (∀ x : LIBRA_PRESET_CTX_ORIENTATION, x = .Vertical ∨ x = .Horizontal) ∧
    (∀ x : LIBRA_PRESET_CTX_RUNTIME,
      x = .None ∨ x = .GlCore ∨ x = .Vulkan ∨ x = .D3D11 ∨ x = .D3D12 ∨
        x = .Metal) ∧
    Orientation.fromCtx .Vertical = .Vertical ∧
    Orientation.fromCtx .Horizontal = .Horizontal ∧
    VideoDriver.fromCtx .None = .None ∧
    VideoDriver.fromCtx .GlCore = .GlCore ∧
    VideoDriver.fromCtx .Vulkan = .Vulkan ∧
    VideoDriver.fromCtx .D3D11 = .Direct3D11 ∧
    VideoDriver.fromCtx .D3D12 = .Direct3D12 ∧
    VideoDriver.fromCtx .Metal = .Metal ∧
    (∀ a b : LIBRA_PRESET_CTX_ORIENTATION,
      Orientation.fromCtx a = Orientation.fromCtx b → a = b) ∧
    (∀ a b : LIBRA_PRESET_CTX_RUNTIME,
      VideoDriver.fromCtx a = VideoDriver.fromCtx b → a = b) := by
  decide

/-- Witness for C5: the D3D11 mapping equation and injectivity at a concrete
pair. -/
theorem context_enum_conversions_total_injective_holds :
    VideoDriver.fromCtx LIBRA_PRESET_CTX_RUNTIME.D3D11 =
      VideoDriver.Direct3D11 ∧
    LIBRA_PRESET_CTX_RUNTIME.Metal = LIBRA_PRESET_CTX_RUNTIME.Metal := by
  obtain ⟨-, -, -, -, -, -, -, h11, -, -, -, hinj⟩ :=
    context_enum_conversions_total_injective
  exact ⟨h11, hinj LIBRA_PRESET_CTX_RUNTIME.Metal LIBRA_PRESET_CTX_RUNTIME.Metal rfl⟩

/-- C7: a viewport value carries an origin offset (x, y) in addition to a
width and height — every combination is representable — and the rectangle it
denotes can be a proper sub-region of the output surface rather than the
entire surface. -/
theorem viewport_denotes_offset_subrectangle :
    (∀ (x y : Rat) (w h : Nat), ∃ v : libra_viewport_t,
      v.x = x ∧ v.y = y ∧ v.width = w ∧ v.height = h) ∧
    ∃ v surface : libra_viewport_t,
      surface.x = 0 ∧ surface.y = 0 ∧ (v.x ≠ 0 ∨ v.y ≠ 0) ∧
      v.region ⊆ surface.region ∧
      ∃ p : Rat × Rat, p ∈ surface.region ∧ p ∉ v.region := by
  constructor
  · intro x y w h
    exact ⟨⟨x, y, w, h⟩, rfl, rfl, rfl, rfl⟩
  · refine ⟨⟨1, 1, 2, 2⟩, ⟨0, 0, 8, 8⟩, rfl, rfl, Or.inl (by norm_num), ?_, ?_⟩
    · intro p hp
      simp only [libra_viewport_t.region, Set.mem_setOf_eq] at hp ⊢
      push_cast at hp ⊢
      obtain ⟨h1, h2, h3, h4⟩ := hp
      exact ⟨by linarith, by linarith, by linarith, by linarith⟩
    · refine ⟨(0, 0), ?_, ?_⟩
      · simp only [libra_viewport_t.region, Set.mem_setOf_eq]
        push_cast
        norm_num
      · simp only [libra_viewport_t.region, Set.mem_setOf_eq]
        push_cast
        norm_num

/-- C10: a C API handle is an Option of a non-null pointer: the null pointer
is a representable, valid value meaning "no object"; decoding an ABI value
is total, returns `none` exactly for null, and is mutually inverse with
encoding, so no handle is both non-null and typed as absent; the named
handle types of the C API are all of this shape. -/
theorem handle_null_pointer_roundtrip {T : Type} :
    (∀ h : Handle T, decodePtr (encodePtr h) = h) ∧
    (∀ n : Nat, encodePtr (decodePtr n : Handle T) = n) ∧
    (∀ h : Handle T, encodePtr h = 0 ↔ h = none) ∧
    decodePtr 0 = (none : Handle T) ∧
    libra_shader_preset_t = Option (NonNull Presets.ShaderPreset) ∧
    libra_preset_ctx_t = Option (NonNull WildcardContext) ∧
    libra_error_t = Option (NonNull LibrashaderError) ∧
    libra_gl_filter_chain_t = Option (NonNull FilterChainGL) ∧
    libra_d3d11_filter_chain_t = Option (NonNull FilterChainD3D11) ∧
    libra_d3d12_filter_chain_t = Option (NonNull FilterChainD3D12) ∧
    libra_d3d9_filter_chain_t = Option (NonNull FilterChainD3D9) ∧
    libra_vk_filter_chain_t = Option (NonNull FilterChainVulkan) ∧
    libra_mtl_filter_chain_t = Option (NonNull FilterChainMetal) := by
  refine ⟨?_, ?_, ?_, rfl, rfl, rfl, rfl, rfl, rfl, rfl, rfl, rfl, rfl⟩
  · intro h
    cases h with
    | none => rfl
    | some p =>
      unfold encodePtr decodePtr
      rw [dif_neg p.addr_ne]
  · intro n
    unfold decodePtr
    by_cases h : n = 0
    · subst h
      rfl
    · rw [dif_neg h]
      rfl
  · intro h
    cases h with
    | none => simp [encodePtr]
    | some p => simp [encodePtr, p.addr_ne]

end CApi

end Librashader
